import Mathlib

/-!
# Verification of the Vizier trial-loop driver
(`ml_notebooks/image_classification/pcam/04_vizier_pcam_model_training.ipynb`)

The notebook drives a hyperparameter-tuning study against the external Vertex
Vizier service: it repeatedly calls `suggest_trials`, fetches each suggested
trial with `get_trial`, skips trials whose state is terminal, extracts the
`batch_size` / `learning_rate` parameters, evaluates them with
`CreateMetrics` (which calls `run_model_training`), reports the measurement
with `add_trial_measurement` and completes the trial with `complete_trial`.

This file is a shallow embedding of that loop.  The external service and the
actual TensorFlow training are oracles supplied as input (`Oracle`); the
driver's own control flow is translated statement by statement from the
notebook cell

```python
trial_id = 0
while int(trial_id) < max_trial_id_to_stop:
    suggest_response = vizier_client.suggest_trials({...})
    for suggested_trial in suggest_response.result().trials:
        trial_id = suggested_trial.name.split("/")[-1]
        trial = vizier_client.get_trial({"name": suggested_trial.name})
        if trial.state in ["COMPLETED", "INFEASIBLE"]:
            continue
        for param in trial.parameters:
            if param.parameter_id == "batch_size":
                batch_size = param.value
            elif param.parameter_id == "learning_rate":
                learning_rate = param.value
        print(...)                      # NameError here if a name is unbound
        vizier_client.add_trial_measurement(
            {..., "metrics": CreateMetrics(suggested_trial.name,
                                           int(batch_size), learning_rate, ...)})
    response = vizier_client.complete_trial(
            {"name": suggested_trial.name, "trial_infeasible": False})
```

Trial names are resource paths whose final segment is a numeric id; the code
only ever uses `name.split("/")[-1]` converted through `int`, so a trial name
is modelled by that numeric id.  Python floats are modelled by `ℚ`; `int()`
truncation toward zero is `pyInt`.  Python exceptions are modelled by
`Except PyErr`; since an uncaught exception aborts the loop, a run returns
the trace of service calls made up to the abort, together with the outcome.
The `while` loop can run forever (nothing in the body forces progress when a
suggestion batch is empty), so the run function takes fuel and reports
whether it halted, failed with an exception, or ran out of fuel.
-/

namespace Pcam

/-- Trial states used by the notebook's terminal-state check. -/
inductive TrialState
  | PENDING
  | ACTIVE
  | COMPLETED
  | INFEASIBLE
deriving DecidableEq, Repr

/-- One parameter assignment of a trial (`param.parameter_id`, `param.value`).
The service delivers values as doubles; they are modelled as rationals. -/
structure Param where
  parameter_id : String
  value : ℚ
deriving DecidableEq, Repr

/-- A trial as seen by the driver: the numeric final segment of its resource
name, its state, and its parameter assignments. -/
structure Trial where
  nameId : Nat
  state : TrialState
  parameters : List Param
deriving DecidableEq, Repr

/-- One reported metric (`{"metric_id": ..., "value": ...}`). -/
structure MetricValue where
  metric_id : String
  value : ℚ
deriving DecidableEq, Repr

/-- The part of `model.history.history` that `run_model_training` reads:
the `val_accuracy` and `val_loss` series, one entry per epoch. -/
structure TrainHistory where
  val_accuracy : List ℚ
  val_loss : List ℚ
deriving DecidableEq, Repr

/-- Python exceptions that the embedded code can raise: an unbound name
(`NameError`), `[-1]` on an empty list (`IndexError`), or an error raised by
a remote service call. -/
inductive PyErr
  | nameError
  | indexError
  | remote (msg : String)
deriving DecidableEq, Repr

/-- `int()` applied to a Python float: truncation toward zero. -/
def pyInt (q : ℚ) : ℤ := if 0 ≤ q then ⌊q⌋ else ⌈q⌉

/-- The environment of one run: the outcome of the n-th `suggest_trials`
call, the outcome of `get_trial` for each trial name, the outcomes of the
`add_trial_measurement` and `complete_trial` calls for each trial name, and
the TensorFlow training run (`model.fit` followed by reading the history),
as a function of the batch size and learning rate actually passed in.
`.error` models the call raising an exception. -/
structure Oracle where
  suggest : Nat → Except PyErr (List Trial)
  get : Nat → Except PyErr Trial
  addMeasurement : Nat → Except PyErr Unit
  complete : Nat → Except PyErr Unit
  train : ℤ → ℚ → TrainHistory

/-- The observable actions of the driver: remote calls made and invocations
of the evaluation function, in program order. -/
inductive Event
  | suggestReq (clientId : String)
  | getTrialReq (nameId : Nat)
  | evalCall (nameId : Nat) (batch_size : ℤ) (learning_rate : ℚ)
  | addMeasurement (nameId : Nat) (metrics : List MetricValue)
  | completeTrial (nameId : Nat) (infeasible : Bool)
deriving DecidableEq, Repr

/-- The Python variables of the loop that survive from one iteration to the
next: `trial_id` and the (possibly still unbound) globals `batch_size` and
`learning_rate`. -/
structure LoopState where
  trialId : Nat
  batch_size : Option ℚ
  learning_rate : Option ℚ
deriving DecidableEq, Repr

/-- `run_model_training` (notebook cell): runs training via the oracle, then
reads `history["val_accuracy"][-1]` and `history["val_loss"][-1]` (an
`IndexError` when a series is empty) and returns the final-epoch validation
accuracy.  The `model.evaluate(test_data)` call in the source is commented
out, so the test set plays no role. -/
def run_model_training (batch_size : ℤ) (learning_rate : ℚ)
    (train : ℤ → ℚ → TrainHistory) : Except PyErr ℚ :=
  let hist := train batch_size learning_rate
  match hist.val_accuracy.getLast? with
  | none => .error .indexError
  | some val_accuracy =>
    match hist.val_loss.getLast? with
    | none => .error .indexError
    | some _val_loss => .ok val_accuracy

/-- `CreateMetrics` (notebook cell): evaluates the objective for one trial by
running `run_model_training` and wraps the returned accuracy as the single
metric `{"metric_id": "accuracy", "value": accuracy}`. -/
def CreateMetrics (batch_size : ℤ) (learning_rate : ℚ)
    (train : ℤ → ℚ → TrainHistory) : Except PyErr (List MetricValue) :=
  match run_model_training batch_size learning_rate train with
  | .error e => .error e
  | .ok accuracy => .ok [⟨"accuracy", accuracy⟩]

/-- The `for param in trial.parameters` loop: later assignments overwrite
earlier ones; a parameter id other than the two known ones is ignored; a
name not assigned keeps its previous (possibly unbound) value. -/
def extractParams (ps : List Param) (bs lr : Option ℚ) : Option ℚ × Option ℚ :=
  ps.foldl
    (fun acc p =>
      if p.parameter_id = "batch_size" then (some p.value, acc.2)
      else if p.parameter_id = "learning_rate" then (acc.1, some p.value)
      else acc)
    (bs, lr)

/-- The body of the `for suggested_trial in ...` loop for one suggested
trial: update `trial_id` from the trial name, fetch the trial, skip it when
its state is terminal, otherwise extract the parameters, evaluate
(`CreateMetrics` with `int(batch_size)`), report the measurement and
complete the trial with `trial_infeasible = False`.  Returns the events in
program order and either the updated loop state or the exception that
aborted the run. -/
def processTrial (o : Oracle) (st : LoopState) (sg : Trial) :
    List Event × Except PyErr LoopState :=
  let st1 : LoopState := { st with trialId := sg.nameId }
  match o.get sg.nameId with
  | .error e => ([.getTrialReq sg.nameId], .error e)
  | .ok trial =>
    if trial.state = .COMPLETED ∨ trial.state = .INFEASIBLE then
      ([.getTrialReq sg.nameId], .ok st1)
    else
      let bl := extractParams trial.parameters st1.batch_size st1.learning_rate
      let st2 : LoopState :=
        { st1 with batch_size := bl.1, learning_rate := bl.2 }
      match bl.1, bl.2 with
      | none, _ => ([.getTrialReq sg.nameId], .error .nameError)
      | some _, none => ([.getTrialReq sg.nameId], .error .nameError)
      | some bs, some lr =>
        match CreateMetrics (pyInt bs) lr o.train with
        | .error e =>
          ([.getTrialReq sg.nameId, .evalCall sg.nameId (pyInt bs) lr],
           .error e)
        | .ok metrics =>
          match o.addMeasurement sg.nameId with
          | .error e =>
            ([.getTrialReq sg.nameId, .evalCall sg.nameId (pyInt bs) lr,
              .addMeasurement sg.nameId metrics], .error e)
          | .ok _ =>
            match o.complete sg.nameId with
            | .error e =>
              ([.getTrialReq sg.nameId, .evalCall sg.nameId (pyInt bs) lr,
                .addMeasurement sg.nameId metrics,
                .completeTrial sg.nameId false], .error e)
            | .ok _ =>
              ([.getTrialReq sg.nameId, .evalCall sg.nameId (pyInt bs) lr,
                .addMeasurement sg.nameId metrics,
                .completeTrial sg.nameId false], .ok st2)

/-- The `for suggested_trial in suggest_response.result().trials` loop over
one suggestion batch; an exception aborts the remaining trials. -/
def processBatch (o : Oracle) : LoopState → List Trial →
    List Event × Except PyErr LoopState
  | st, [] => ([], .ok st)
  | st, sg :: sgs =>
    match processTrial o st sg with
    | (evs, .error e) => (evs, .error e)
    | (evs, .ok st') =>
      match processBatch o st' sgs with
      | (evs', r) => (evs ++ evs', r)

/-- Outcome of a bounded run of the `while` loop. -/
inductive RunResult
  | halted (st : LoopState)
  | failed (e : PyErr)
  | fuelOut (st : LoopState)
deriving DecidableEq, Repr

/-- The `while int(trial_id) < max_trial_id_to_stop` loop: `n` counts the
`suggest_trials` calls made so far (indexing into the oracle), `fuel` bounds
the number of loop iterations examined. -/
def runLoop (o : Oracle) (clientId : String) (ceiling : Nat) :
    Nat → Nat → LoopState → List Event × RunResult
  | 0, _, st => ([], .fuelOut st)
  | fuel + 1, n, st =>
    if st.trialId < ceiling then
      match o.suggest n with
      | .error e => ([.suggestReq clientId], .failed e)
      | .ok trials =>
        match processBatch o st trials with
        | (evs, .error e) => (.suggestReq clientId :: evs, .failed e)
        | (evs, .ok st') =>
          match runLoop o clientId ceiling fuel (n + 1) st' with
          | (evs', r) => (.suggestReq clientId :: (evs ++ evs'), r)
    else ([], .halted st)

/-- The whole driver cell: `trial_id = 0`, `client_id = "client_pcam"`,
globals `batch_size` / `learning_rate` initially unbound. -/
def runDriver (o : Oracle) (ceiling fuel : Nat) : List Event × RunResult :=
  runLoop o "client_pcam" ceiling fuel 0 ⟨0, none, none⟩

/-- Number of `complete_trial` calls in a trace. -/
def countCompletes (evs : List Event) : Nat :=
  (evs.filter fun e =>
    match e with
    | .completeTrial _ _ => true
    | _ => false).length

/-! ## Concrete test oracles -/

/-- A pending trial of the given id carrying the two study parameters with
`batch_size = 16` and `learning_rate = 1/10`. -/
def pTrial (id : Nat) : Trial :=
  ⟨id, .PENDING, [⟨"batch_size", 16⟩, ⟨"learning_rate", 1/10⟩]⟩

/-- A training history with one epoch of validation accuracy 9/10. -/
def okHist : TrainHistory := ⟨[9/10], [1/10]⟩

/-- A well-behaved environment: the n-th suggestion batch is the single
pending trial `n+1`, every remote call succeeds and training always reports
validation accuracy 9/10. -/
def seqOracle : Oracle where
  suggest := fun n => .ok [pTrial (n + 1)]
  get := fun id => .ok (pTrial id)
  addMeasurement := fun _ => .ok ()
  complete := fun _ => .ok ()
  train := fun _ _ => okHist

/-- An exhausted optimizer: every suggestion request returns an empty
batch; everything else is as in `seqOracle`. -/
def emptyOracle : Oracle where
  suggest := fun _ => .ok []
  get := fun id => .ok (pTrial id)
  addMeasurement := fun _ => .ok ()
  complete := fun _ => .ok ()
  train := fun _ _ => okHist

/-- Like `seqOracle`, except that trial 1 is already COMPLETED when fetched
with `get_trial`, so the driver skips it. -/
def skipOracle : Oracle where
  suggest := fun n => .ok [pTrial (n + 1)]
  get := fun id =>
    if id = 1 then .ok ⟨1, .COMPLETED, []⟩ else .ok (pTrial id)
  addMeasurement := fun _ => .ok ()
  complete := fun _ => .ok ()
  train := fun _ _ => okHist

/-- Trial 1 with a chosen `batch_size` value `b`. -/
def bsTrial1 (b : ℚ) : Trial :=
  ⟨1, .PENDING, [⟨"batch_size", b⟩, ⟨"learning_rate", 1/10⟩]⟩

/-- Trial 2 whose parameter list carries only `learning_rate` and no
`batch_size` assignment. -/
def noBsTrial2 : Trial := ⟨2, .PENDING, [⟨"learning_rate", 1/100⟩]⟩

/-- An environment whose first suggested trial is `bsTrial1 b` and whose
second suggested trial is `noBsTrial2` (no `batch_size` of its own). -/
def staleOracle (b : ℚ) : Oracle where
  suggest := fun n =>
    if n = 0 then .ok [bsTrial1 b] else .ok [noBsTrial2]
  get := fun id => if id = 1 then .ok (bsTrial1 b) else .ok noBsTrial2
  addMeasurement := fun _ => .ok ()
  complete := fun _ => .ok ()
  train := fun _ _ => okHist

/-- Like `seqOracle`, but training returns an empty history, so
`run_model_training` raises an `IndexError` on `val_accuracy[-1]`. -/
def failOracle : Oracle where
  suggest := fun n => .ok [pTrial (n + 1)]
  get := fun id => .ok (pTrial id)
  addMeasurement := fun _ => .ok ()
  complete := fun _ => .ok ()
  train := fun _ _ => ⟨[], []⟩

/-- A suggestion service that is down: every `suggest_trials` call
raises. -/
def downOracle : Oracle where
  suggest := fun _ => .error (.remote "unavailable")
  get := fun id => .ok (pTrial id)
  addMeasurement := fun _ => .ok ()
  complete := fun _ => .ok ()
  train := fun _ _ => okHist

/-- Like `seqOracle`, but the suggested batch size is the non-integral
value 33/2, exercising the `int()` truncation. -/
def fracOracle : Oracle where
  suggest := fun _ =>
    .ok [⟨1, .PENDING, [⟨"batch_size", 33/2⟩, ⟨"learning_rate", 1/10⟩]⟩]
  get := fun _ =>
    .ok ⟨1, .PENDING, [⟨"batch_size", 33/2⟩, ⟨"learning_rate", 1/10⟩]⟩
  addMeasurement := fun _ => .ok ()
  complete := fun _ => .ok ()
  train := fun _ _ => okHist

/-- First of two options that is `some`, preferring the first. -/
def opOr (x y : Option ℚ) : Option ℚ :=
  match x with
  | some a => some a
  | none => y

/-- Value of the last parameter in the list carrying the given id, if any:
Python's `for param in trial.parameters` loop leaves the value of the last
matching assignment in the variable. -/
def lastValue (pid : String) : List Param → Option ℚ
  | [] => none
  | p :: ps =>
    opOr (lastValue pid ps)
      (if p.parameter_id = pid then some p.value else none)

/-- Whether a bounded run ended with the `while` condition becoming false. -/
def RunResult.isHalted : RunResult → Bool
  | .halted _ => true
  | _ => false

/-! ## The external suggestion service (spec model)

The behaviour below is not implemented anywhere in this repository: the
notebook only calls the remote Vertex Vizier service.  It is modelled from
the spec so that the documented client-identity invariant can be stated. -/

/-- Modelled from the spec: the state of the external Vizier suggestion
service, as seen by one fixed client identity, is missing from the
repository (only the client calls exist).  The service keeps a fresh-id
counter and, per client identity, the trial it has handed out that is still
PENDING. -/
structure VizierState where
  nextId : Nat
  pending : Option Nat
deriving DecidableEq, Repr

/-- Modelled from the spec: `suggest(study, client_id, count)` for the fixed
client identity.  While the previously suggested trial is still PENDING the
identical trial is returned; otherwise a new trial with a fresh identifier
is created, recorded as PENDING for this client, and returned. -/
def svcSuggest : VizierState → VizierState × Nat
  | ⟨n, some t⟩ => (⟨n, some t⟩, t)
  | ⟨n, none⟩ => (⟨n + 1, some n⟩, n)

/-- Modelled from the spec: `complete(trial_id, infeasible)` marks the
client's pending trial COMPLETED, so it is no longer held for the client. -/
def svcComplete (s : VizierState) : VizierState := { s with pending := none }

/-- Every trial identifier the service has handed out is smaller than the
fresh-id counter. -/
def VizierInv (s : VizierState) : Prop :=
  match s.pending with
  | none => True
  | some t => t < s.nextId

end Pcam

/-! ## General lemmas about the driver -/

namespace Pcam

/-- Processing one well-behaved sequential trial: fetch, evaluate with
`batch_size` 16 and `learning_rate` 1/10, report accuracy 9/10, complete. -/
theorem processTrial_seq (st : LoopState) (id : Nat) :
    processTrial seqOracle st (pTrial id) =
      ([.getTrialReq id, .evalCall id 16 (1/10),
        .addMeasurement id [⟨"accuracy", 9/10⟩], .completeTrial id false],
       .ok ⟨id, some 16, some (1/10)⟩) := rfl

/-- When the trial counter has already reached the ceiling, the loop makes
no further calls and halts at once (given any fuel at all). -/
theorem runLoop_halted_of_ge (o : Oracle) (cid : String) (C fuel n : Nat)
    (st : LoopState) (hge : C ≤ st.trialId) (hf : 0 < fuel) :
    runLoop o cid C fuel n st = ([], .halted st) := by
  cases fuel with
  | zero => omega
  | succ f => simp [runLoop, Nat.not_lt.mpr hge]

/-- `countCompletes` is additive over trace concatenation. -/
theorem countCompletes_append (a b : List Event) :
    countCompletes (a ++ b) = countCompletes a + countCompletes b := by
  simp [countCompletes]

/-- The n-th suggestion batch of `seqOracle` is the single trial `n+1`. -/
theorem seqOracle_suggest (n : Nat) :
    seqOracle.suggest n = .ok [pTrial (n + 1)] := rfl

/-- One sequential suggestion batch processed in full. -/
theorem processBatch_seq_single (st : LoopState) (id : Nat) :
    processBatch seqOracle st [pTrial id] =
      ([.getTrialReq id, .evalCall id 16 (1/10),
        .addMeasurement id [⟨"accuracy", 9/10⟩], .completeTrial id false],
       .ok ⟨id, some 16, some (1/10)⟩) := rfl

/-- Against `seqOracle`, starting with trial counter `k < C` and enough
fuel, the loop halts at counter `C` having completed exactly `C - k`
trials. -/
theorem seq_loop_halts (C : Nat) : ∀ (fuel k : Nat) (st : LoopState),
    st.trialId = k → k < C → C - k < fuel →
    (runLoop seqOracle "client_pcam" C fuel k st).2 =
        .halted ⟨C, some 16, some (1/10)⟩ ∧
    countCompletes (runLoop seqOracle "client_pcam" C fuel k st).1 = C - k := by
  intro fuel
  induction fuel with
  | zero => intro k st h1 h2 h3; omega
  | succ f ih =>
    intro k st h1 h2 h3
    rw [runLoop]
    simp only [h1, h2, if_true, seqOracle_suggest, processBatch_seq_single]
    by_cases hlt : k + 1 < C
    · rcases hr : runLoop seqOracle "client_pcam" C f (k + 1)
          ⟨k + 1, some 16, some (1/10)⟩ with ⟨evs2, r⟩
      have hih := ih (k + 1) ⟨k + 1, some 16, some (1/10)⟩ rfl hlt (by omega)
      rw [hr] at hih
      simp only [hr]
      refine ⟨hih.1, ?_⟩
      have hc := hih.2
      simp only [countCompletes, List.filter, List.filter_append,
        List.nil_append, List.append, List.length_append, List.length_cons] at hc ⊢
      omega
    · have hC : C = k + 1 := by omega
      have hstop := runLoop_halted_of_ge seqOracle "client_pcam" C f (k + 1)
        ⟨k + 1, some 16, some (1/10)⟩ (by show C ≤ k + 1; omega) (by omega)
      simp only [hstop]
      constructor
      · rw [hC]
      · simp only [countCompletes, List.filter, List.nil_append,
          List.append_nil, List.length_cons, List.length_nil]
        omega

end Pcam
namespace Pcam

/-- C5: in the run with ceiling 2 where the optimizer returns exactly one
PENDING trial per suggestion request (ids 1 and 2) and every evaluation
returns accuracy 9/10, the driver halts after issuing exactly two
`complete_trial` calls, each immediately preceded by exactly one
`add_trial_measurement` call carrying `{"accuracy": 9/10}` for the same
trial, as the explicit trace shows. -/
theorem c5_ceiling_two_scenario :
    runDriver seqOracle 2 3 =
      ([.suggestReq "client_pcam", .getTrialReq 1, .evalCall 1 16 (1/10),
        .addMeasurement 1 [⟨"accuracy", 9/10⟩], .completeTrial 1 false,
        .suggestReq "client_pcam", .getTrialReq 2, .evalCall 2 16 (1/10),
        .addMeasurement 2 [⟨"accuracy", 9/10⟩], .completeTrial 2 false],
       .halted ⟨2, some 16, some (1/10)⟩) ∧
    countCompletes (runDriver seqOracle 2 3).1 = 2 :=
  ⟨rfl, by decide⟩

/-- C2 amended: for every ceiling C, when each suggestion request returns
one PENDING trial with sequential ids 1, 2, …, the loop halts and completes
exactly C trials.  (The original claim fails: a suggested trial skipped as
terminal advances the trial counter and does count toward the ceiling — see
the counterexample — and an exhausted optimizer does not halt the loop.) -/
theorem c2_processes_exactly_ceiling (C : Nat) :
    ((runDriver seqOracle C (C + 1)).2).isHalted = true ∧
    countCompletes (runDriver seqOracle C (C + 1)).1 = C := by
  cases C with
  | zero => exact ⟨rfl, rfl⟩
  | succ C' =>
    have h := seq_loop_halts (C' + 1) (C' + 2) 0 ⟨0, none, none⟩ rfl
      (by omega) (by omega)
    rw [runDriver]
    exact ⟨by rw [h.1]; rfl, h.2⟩

/-- Against an optimizer that always returns an empty batch, the loop makes
one suggestion request per iteration and never changes state. -/
theorem emptyOracle_runLoop (C : Nat) : ∀ (fuel n : Nat) (st : LoopState),
    st.trialId < C →
    runLoop emptyOracle "client_pcam" C fuel n st =
      (List.replicate fuel (.suggestReq "client_pcam"), .fuelOut st) := by
  intro fuel
  induction fuel with
  | zero => intro n st h; rfl
  | succ f ih =>
    intro n st h
    rw [runLoop]
    simp only [h, if_true]
    have : emptyOracle.suggest n = .ok [] := rfl
    rw [this]
    simp only [processBatch]
    rw [ih (n + 1) st h]
    rfl

/-- C1 counterexample: with ceiling 1 and an optimizer whose every
suggestion response is the empty batch, no amount of fuel makes the loop
halt — the empty batch leaves `trial_id` at 0 and the loop re-requests
suggestions forever instead of stopping on exhaustion. -/
theorem c1_empty_batches_never_halt :
    ¬ ∃ (fuel : Nat) (st : LoopState),
        (runDriver emptyOracle 1 fuel).2 = RunResult.halted st := by
  rintro ⟨fuel, st, h⟩
  rw [runDriver, emptyOracle_runLoop 1 fuel 0 ⟨0, none, none⟩ (by decide)] at h
  simp at h

/-- C1 amended: the only way the trial loop terminates is the trial
counter reaching the ceiling — whenever a run halts, the final counter is
at least the ceiling.  An empty suggestion batch does not terminate the
loop. -/
theorem c1_loop_halts_only_at_ceiling : ∀ (o : Oracle) (cid : String) (C fuel n : Nat)
    (st st' : LoopState),
    (runLoop o cid C fuel n st).2 = .halted st' → C ≤ st'.trialId := by
  intro o cid C fuel
  induction fuel with
  | zero => intro n st st' h; simp [runLoop] at h
  | succ f ih =>
    intro n st st' h
    rw [runLoop] at h
    split at h
    · split at h
      · simp at h
      · split at h
        · simp at h
        · rename_i st1 hb
          split at h
          rename_i evs' r' hr
          simp only at h
          exact ih (n + 1) st1 st' (by rw [hr]; exact h)
    · simp only at h
      rcases h with h
      injection h with h
      subst h
      omega

end Pcam
namespace Pcam

/-- C2 counterexample: with ceiling 2 against `skipOracle` — which supplies
a trial in every batch, but whose trial 1 is already COMPLETED when fetched
— the run halts with the trial counter at the ceiling having completed only
ONE trial: the skipped terminal trial advanced `trial_id` and so counted
toward the ceiling, contradicting "exactly min(ceiling, available trials)
are processed" and "a skipped terminal trial does not count". -/
theorem c2_skipped_trial_counts :
    skipOracle.suggest 0 = .ok [pTrial 1] ∧
    skipOracle.suggest 1 = .ok [pTrial 2] ∧
    skipOracle.get 1 = .ok ⟨1, .COMPLETED, []⟩ ∧
    (runDriver skipOracle 2 3).2 =
        .halted ⟨2, some 16, some (1/10)⟩ ∧
    countCompletes (runDriver skipOracle 2 3).1 = 1 :=
  ⟨rfl, rfl, rfl, rfl, by decide⟩

/-- helper -/
theorem mem_processTrial_complete (o : Oracle) (st : LoopState) (sg : Trial)
    (id : Nat) (b : Bool)
    (h : Event.completeTrial id b ∈ (processTrial o st sg).1) : b = false := by
  simp only [processTrial] at h
  repeat' split at h
  all_goals simp_all

/-- helper -/
theorem mem_processBatch_complete : ∀ (ts : List Trial) (o : Oracle)
    (st : LoopState) (id : Nat) (b : Bool),
    Event.completeTrial id b ∈ (processBatch o st ts).1 → b = false := by
  intro ts
  induction ts with
  | nil => intro o st id b h; simp [processBatch] at h
  | cons t ts ih =>
    intro o st id b h
    rw [processBatch] at h
    split at h
    · rename_i evs e heq
      exact mem_processTrial_complete o st t id b (by rw [heq]; exact h)
    · rename_i evs st' heq
      simp only [List.mem_append] at h
      rcases h with h | h
      · exact mem_processTrial_complete o st t id b (by rw [heq]; exact h)
      · exact ih o st' id b h

/-- helper -/
theorem mem_runLoop_complete : ∀ (fuel : Nat) (o : Oracle) (cid : String)
    (C n : Nat) (st : LoopState) (id : Nat) (b : Bool),
    Event.completeTrial id b ∈ (runLoop o cid C fuel n st).1 → b = false := by
  intro fuel
  induction fuel with
  | zero => intro o cid C n st id b h; simp [runLoop] at h
  | succ f ih =>
    intro o cid C n st id b h
    rw [runLoop] at h
    split at h
    · split at h
      · simp at h
      · split at h
        · rename_i evs e heq
          simp only [List.mem_cons] at h
          rcases h with h | h
          · simp at h
          · exact mem_processBatch_complete _ o st id b (by rw [heq]; exact h)
        · rename_i evs st' heq
          split at h
          rename_i evs' r' hr
          simp only [List.mem_cons, List.mem_append] at h
          rcases h with h | h | h
          · simp at h
          · exact mem_processBatch_complete _ o st id b (by rw [heq]; exact h)
          · exact ih o cid C (n + 1) st' id b (by rw [hr]; exact h)
    · simp at h

/-- C3 counterexample: no run of the driver, under any environment, ever
issues a completion with `trial_infeasible = true`; the claimed path that
reports `infeasible = true` when evaluation deems the configuration
unusable does not exist in the code. -/
theorem c3_no_infeasible_true_path :
    ¬ ∃ (o : Oracle) (C fuel : Nat) (id : Nat),
        Event.completeTrial id true ∈ (runDriver o C fuel).1 := by
  rintro ⟨o, C, fuel, id, h⟩
  have := mem_runLoop_complete fuel o "client_pcam" C 0 _ id true h
  simp at this

/-- C3 amended: every `complete_trial` call the driver issues carries the
literal `trial_infeasible = false`, regardless of what evaluation produced;
an evaluation failure aborts the run before any completion call instead of
reporting infeasibility. -/
theorem c3_completions_never_infeasible (o : Oracle) (C fuel : Nat) (id : Nat) (b : Bool)
    (h : Event.completeTrial id b ∈ (runDriver o C fuel).1) : b = false :=
  mem_runLoop_complete fuel o "client_pcam" C 0 _ id b h

/-- C3 witness: a concrete run contains a completion event, and the
theorem applies to it. -/
theorem c3_witness :
    (Event.completeTrial 1 false ∈ (runDriver seqOracle 2 3).1) ∧
      false = false :=
  ⟨by decide, c3_completions_never_infeasible seqOracle 2 3 1 false (by decide)⟩

end Pcam
namespace Pcam

theorem opOr_none (x : Option ℚ) : opOr x none = x := by cases x <;> rfl

theorem opOr_opOr_some (a : Option ℚ) (v : ℚ) (c : Option ℚ) :
    opOr (opOr a (some v)) c = opOr a (some v) := by cases a <;> rfl

/-- The parameter-extraction loop computes, for each of the two names, the
last assignment in the trial's own list, falling back to the value the
variable had before the loop. -/
theorem extractParams_eq : ∀ (ps : List Param) (bs lr : Option ℚ),
    extractParams ps bs lr =
      (opOr (lastValue "batch_size" ps) bs,
       opOr (lastValue "learning_rate" ps) lr) := by
  intro ps
  induction ps with
  | nil => intro bs lr; rfl
  | cons p ps ih =>
    intro bs lr
    have hstep : extractParams (p :: ps) bs lr =
        extractParams ps
          (if p.parameter_id = "batch_size" then some p.value else bs)
          (if p.parameter_id = "batch_size" then lr
           else if p.parameter_id = "learning_rate" then some p.value
           else lr) := by
      simp only [extractParams, List.foldl_cons]
      by_cases h1 : p.parameter_id = "batch_size"
      · simp [h1]
      · by_cases h2 : p.parameter_id = "learning_rate" <;> simp [h1, h2]
    rw [hstep, ih]
    simp only [lastValue]
    by_cases h1 : p.parameter_id = "batch_size"
    · have h2 : ¬ p.parameter_id = "learning_rate" := by simp [h1]
      simp [h1, h2, opOr_none, opOr_opOr_some]
    · by_cases h2 : p.parameter_id = "learning_rate" <;>
        simp [h1, h2, opOr_none, opOr_opOr_some]

/-- C4 counterexample: two runs whose second suggested trial is the same
`noBsTrial2` — a trial whose own parameter list has no `batch_size` — call
the evaluation function for trial 2 with batch size 16 in one run and 32 in
the other, i.e. with the value left over from trial 1: the arguments do not
depend only on the trial's own parameter assignment, because the globals
`batch_size`/`learning_rate` survive across iterations. -/
theorem c4_stale_parameter_leak :
    Event.evalCall 2 16 (1/100) ∈ (runDriver (staleOracle 16) 2 3).1 ∧
    Event.evalCall 2 32 (1/100) ∈ (runDriver (staleOracle 32) 2 3).1 ∧
    noBsTrial2.parameters = [⟨"learning_rate", 1/100⟩] := by
  refine ⟨?_, ?_, rfl⟩
  · show Event.evalCall 2 16 (1/100) ∈
      [Event.suggestReq "client_pcam", .getTrialReq 1, .evalCall 1 16 (1/10),
       .addMeasurement 1 [⟨"accuracy", 9/10⟩], .completeTrial 1 false,
       .suggestReq "client_pcam", .getTrialReq 2, .evalCall 2 16 (1/100),
       .addMeasurement 2 [⟨"accuracy", 9/10⟩], .completeTrial 2 false]
    simp
  · show Event.evalCall 2 32 (1/100) ∈
      [Event.suggestReq "client_pcam", .getTrialReq 1, .evalCall 1 32 (1/10),
       .addMeasurement 1 [⟨"accuracy", 9/10⟩], .completeTrial 1 false,
       .suggestReq "client_pcam", .getTrialReq 2, .evalCall 2 32 (1/100),
       .addMeasurement 2 [⟨"accuracy", 9/10⟩], .completeTrial 2 false]
    simp

/-- C4 amended: besides the trial counter the driver retains the last-seen
`batch_size` and `learning_rate` across iterations; for a trial whose own
parameter list assigns both parameters, processing is independent of that
carried state and the evaluation function receives exactly the trial's own
(last) assignments, `int`-truncated batch size and unchanged learning
rate. -/
theorem c4_eval_args_own_params_when_bound (o : Oracle) (sg tr : Trial) (b l : ℚ)
    (hget : o.get sg.nameId = .ok tr)
    (hterm : ¬ (tr.state = .COMPLETED ∨ tr.state = .INFEASIBLE))
    (hb : lastValue "batch_size" tr.parameters = some b)
    (hl : lastValue "learning_rate" tr.parameters = some l) :
    ∀ st st' : LoopState,
      processTrial o st sg = processTrial o st' sg ∧
      Event.evalCall sg.nameId (pyInt b) l ∈ (processTrial o st sg).1 := by
  intro st st'
  constructor
  · simp only [processTrial, hget, if_neg hterm, extractParams_eq, hb, hl, opOr]
  · simp only [processTrial, hget, if_neg hterm, extractParams_eq, hb, hl, opOr]
    repeat' split
    all_goals simp

end Pcam
namespace Pcam

/-- If a prefix of a batch is processed successfully and the next trial's
processing raises, the whole batch raises that error, the remaining trials
are not touched, and the trace is the prefix trace followed by the failing
trial's trace. -/
theorem processBatch_append_error : ∀ (ts1 : List Trial) (o : Oracle)
    (st : LoopState) (evs1 : List Event) (st1 : LoopState),
    processBatch o st ts1 = (evs1, .ok st1) →
    ∀ (sg : Trial) (ts2 : List Trial) (evs : List Event) (e : PyErr),
    processTrial o st1 sg = (evs, .error e) →
    processBatch o st (ts1 ++ sg :: ts2) = (evs1 ++ evs, .error e) := by
  intro ts1
  induction ts1 with
  | nil =>
    intro o st evs1 st1 h sg ts2 evs e hpt
    rw [processBatch] at h
    simp only [Prod.mk.injEq] at h
    obtain ⟨h1, h2⟩ := h
    injection h2 with h2
    subst h1
    subst h2
    simp only [List.nil_append, processBatch, hpt]
  | cons t ts ih =>
    intro o st evs1 st1 h sg ts2 evs e hpt
    rw [processBatch] at h
    rcases hptA : processTrial o st t with ⟨evsA, rA⟩
    rcases rA with eA | stA
    · simp only [hptA] at h
      simp at h
    · simp only [hptA] at h
      rcases hpb : processBatch o stA ts with ⟨evsB, rB⟩
      simp only [hpb, Prod.mk.injEq] at h
      obtain ⟨h1, h2⟩ := h
      subst h1
      subst h2
      have hrec := ih o stA evsB st1 hpb sg ts2 evs e hpt
      simp only [List.cons_append, processBatch, hptA, hrec]
      simp [hrec, List.append_assoc]

/-- C6: every exception is fatal, with no retry.  The conjuncts cover every
call the loop makes.  (1) A raising `suggest_trials` ends the run with that
error after the one suggestion request.  (2) Whatever trial of whatever
batch raises during processing, the run ends immediately with that error:
the remaining trials of the batch are not processed and no further
suggestion request is made — the trace stops at the failure.  (3) A raising
`get_trial` aborts that trial's processing with that error.  (4) A raising
evaluation aborts with that error, with no `add_trial_measurement` and no
`complete_trial` for that trial.  (5) A raising `add_trial_measurement`
aborts with that error before any completion.  (6) A raising
`complete_trial` aborts with that error. -/
theorem c6_failure_aborts_loop (o : Oracle) (cid : String) (C fuel n : Nat) (st : LoopState)
    (hlt : st.trialId < C) :
    (∀ e, o.suggest n = .error e →
      runLoop o cid C (fuel + 1) n st = ([.suggestReq cid], .failed e)) ∧
    (∀ ts1 sg ts2 evs1 st1 evs e,
      o.suggest n = .ok (ts1 ++ sg :: ts2) →
      processBatch o st ts1 = (evs1, .ok st1) →
      processTrial o st1 sg = (evs, .error e) →
      runLoop o cid C (fuel + 1) n st =
        (.suggestReq cid :: (evs1 ++ evs), .failed e)) ∧
    (∀ (st2 : LoopState) (sg : Trial) e, o.get sg.nameId = .error e →
      processTrial o st2 sg = ([.getTrialReq sg.nameId], .error e)) ∧
    (∀ (st2 : LoopState) (sg tr : Trial) (b l : ℚ) e,
      o.get sg.nameId = .ok tr →
      ¬ (tr.state = .COMPLETED ∨ tr.state = .INFEASIBLE) →
      extractParams tr.parameters st2.batch_size st2.learning_rate =
        (some b, some l) →
      CreateMetrics (pyInt b) l o.train = .error e →
      processTrial o st2 sg =
        ([.getTrialReq sg.nameId, .evalCall sg.nameId (pyInt b) l],
         .error e)) ∧
    (∀ (st2 : LoopState) (sg tr : Trial) (b l : ℚ) ms e,
      o.get sg.nameId = .ok tr →
      ¬ (tr.state = .COMPLETED ∨ tr.state = .INFEASIBLE) →
      extractParams tr.parameters st2.batch_size st2.learning_rate =
        (some b, some l) →
      CreateMetrics (pyInt b) l o.train = .ok ms →
      o.addMeasurement sg.nameId = .error e →
      processTrial o st2 sg =
        ([.getTrialReq sg.nameId, .evalCall sg.nameId (pyInt b) l,
          .addMeasurement sg.nameId ms], .error e)) ∧
    (∀ (st2 : LoopState) (sg tr : Trial) (b l : ℚ) ms e,
      o.get sg.nameId = .ok tr →
      ¬ (tr.state = .COMPLETED ∨ tr.state = .INFEASIBLE) →
      extractParams tr.parameters st2.batch_size st2.learning_rate =
        (some b, some l) →
      CreateMetrics (pyInt b) l o.train = .ok ms →
      o.addMeasurement sg.nameId = .ok () →
      o.complete sg.nameId = .error e →
      processTrial o st2 sg =
        ([.getTrialReq sg.nameId, .evalCall sg.nameId (pyInt b) l,
          .addMeasurement sg.nameId ms, .completeTrial sg.nameId false],
         .error e)) := by
  refine ⟨?_, ?_, ?_, ?_, ?_, ?_⟩
  · intro e hs
    rw [runLoop]
    simp [hlt, hs]
  · intro ts1 sg ts2 evs1 st1 evs e hs hpb hpt
    rw [runLoop]
    simp only [hlt, if_true, hs]
    rw [processBatch_append_error ts1 o st evs1 st1 hpb sg ts2 evs e hpt]
  · intro st2 sg e hget
    simp only [processTrial, hget]
  · intro st2 sg tr b l e hget hterm hbl hcm
    simp only [processTrial, hget, if_neg hterm]
    rw [hbl]
    simp only [hcm]
  · intro st2 sg tr b l ms e hget hterm hbl hcm hadd
    simp only [processTrial, hget, if_neg hterm]
    rw [hbl]
    simp only [hcm, hadd]
  · intro st2 sg tr b l ms e hget hterm hbl hcm hadd hcomp
    simp only [processTrial, hget, if_neg hterm]
    rw [hbl]
    simp only [hcm, hadd, hcomp]

/-- C7: a suggested trial fetched in a terminal state (COMPLETED or
INFEASIBLE) is skipped — no evaluation, no measurement report, no
completion; only the counter is updated.  A non-terminal trial has its
parameters extracted, the evaluation function invoked synchronously, and
the resulting metrics reported as a measurement followed by a
completion. -/
theorem c7_terminal_skipped_nonterminal_completed (o : Oracle) (st : LoopState) (sg tr : Trial)
    (hget : o.get sg.nameId = .ok tr) :
    ((tr.state = .COMPLETED ∨ tr.state = .INFEASIBLE) →
      processTrial o st sg =
        ([.getTrialReq sg.nameId],
         .ok ⟨sg.nameId, st.batch_size, st.learning_rate⟩)) ∧
    (∀ b l ms, ¬ (tr.state = .COMPLETED ∨ tr.state = .INFEASIBLE) →
      extractParams tr.parameters st.batch_size st.learning_rate =
        (some b, some l) →
      CreateMetrics (pyInt b) l o.train = .ok ms →
      o.addMeasurement sg.nameId = .ok () →
      o.complete sg.nameId = .ok () →
      processTrial o st sg =
        ([.getTrialReq sg.nameId, .evalCall sg.nameId (pyInt b) l,
          .addMeasurement sg.nameId ms, .completeTrial sg.nameId false],
         .ok ⟨sg.nameId, some b, some l⟩)) := by
  constructor
  · intro hterm
    simp only [processTrial, hget, if_pos hterm]
  · intro b l ms hterm hbl hcm hadd hcomp
    simp only [processTrial, hget, if_neg hterm]
    rw [hbl]
    simp only [hcm, hadd, hcomp]

/-- C9: whenever a trial is evaluated, the evaluation function is invoked
with the batch-size parameter truncated to an integer (`int(batch_size)`,
i.e. `pyInt`) and the learning-rate parameter passed through unchanged. -/
theorem c9_eval_batch_size_int_truncated (o : Oracle) (st : LoopState) (sg tr : Trial) (b l : ℚ)
    (hget : o.get sg.nameId = .ok tr)
    (hterm : ¬ (tr.state = .COMPLETED ∨ tr.state = .INFEASIBLE))
    (hbl : extractParams tr.parameters st.batch_size st.learning_rate =
      (some b, some l)) :
    Event.evalCall sg.nameId (pyInt b) l ∈ (processTrial o st sg).1 := by
  simp only [processTrial, hget, if_neg hterm]
  rw [hbl]
  repeat' split
  all_goals simp_all

/-- helper for C10 -/
theorem CreateMetrics_ok (bs : ℤ) (lr : ℚ) (train : ℤ → ℚ → TrainHistory)
    (ms : List MetricValue) (h : CreateMetrics bs lr train = .ok ms) :
    ∃ va, (train bs lr).val_accuracy.getLast? = some va ∧
      ms = [⟨"accuracy", va⟩] := by
  simp only [CreateMetrics] at h
  split at h
  · simp at h
  · rename_i acc heq
    rw [run_model_training] at heq
    split at heq
    · simp at heq
    · rename_i va hva
      split at heq
      · simp at heq
      · injection h with h
        injection heq with heq
        subst heq
        exact ⟨va, hva, h.symm⟩

/-- C10: every measurement the driver reports is the single metric
`"accuracy"` whose value is the final epoch of the training run's
`val_accuracy` history (`history["val_accuracy"][-1]`); the test-set
evaluation is commented out in the source and can play no part. -/
theorem c10_measurement_final_val_accuracy (o : Oracle) (st : LoopState) (sg : Trial) (id : Nat)
    (ms : List MetricValue)
    (h : Event.addMeasurement id ms ∈ (processTrial o st sg).1) :
    ∃ b l va, (o.train b l).val_accuracy.getLast? = some va ∧
      ms = [⟨"accuracy", va⟩] := by
  rcases hget : o.get sg.nameId with e | tr
  · simp only [processTrial, hget] at h
    simp at h
  · simp only [processTrial, hget] at h
    by_cases hterm : tr.state = .COMPLETED ∨ tr.state = .INFEASIBLE
    · rw [if_pos hterm] at h
      simp at h
    · rw [if_neg hterm] at h
      rcases hbl : extractParams tr.parameters st.batch_size st.learning_rate
        with ⟨obs, olr⟩
      rw [hbl] at h
      rcases obs with _ | bs
      · simp at h
      · rcases olr with _ | lr
        · simp at h
        · simp only at h
          rcases hcm : CreateMetrics (pyInt bs) lr o.train with e | metrics
          · rw [hcm] at h
            simp at h
          · rw [hcm] at h
            have hms : ms = metrics := by
              rcases hadd : o.addMeasurement sg.nameId with e | u
              · rw [hadd] at h
                simp at h
                exact h.2
              · rw [hadd] at h
                rcases hcomp : o.complete sg.nameId with e | u
                · rw [hcomp] at h
                  simp at h
                  exact h.2
                · rw [hcomp] at h
                  simp at h
                  exact h.2
            subst hms
            exact ⟨pyInt bs, lr, CreateMetrics_ok _ _ _ _ hcm⟩

/-- C8 (spec-modelled service): for a fixed client identity, two
consecutive suggestion requests with no completion in between return the
same trial identifier, and once the suggested trial is completed the next
suggestion request returns a different identifier. -/
theorem c8_client_identity_idempotent (s : VizierState) (hinv : VizierInv s) :
    (svcSuggest (svcSuggest s).1).2 = (svcSuggest s).2 ∧
    (svcSuggest (svcComplete (svcSuggest s).1)).2 ≠ (svcSuggest s).2 := by
  rcases s with ⟨n, p⟩
  cases p with
  | none =>
    refine ⟨rfl, ?_⟩
    simp [svcSuggest, svcComplete]
  | some t =>
    have ht : t < n := hinv
    refine ⟨rfl, ?_⟩
    simp [svcSuggest, svcComplete]
    omega

end Pcam
namespace Pcam

/-- C1 witness: a concrete halting run, whose final counter meets the
ceiling. -/
theorem c1_witness :
    2 ≤ (LoopState.mk 2 (some 16) (some (1/10))).trialId :=
  c1_loop_halts_only_at_ceiling seqOracle "client_pcam" 2 3 0 ⟨0, none, none⟩
    ⟨2, some 16, some (1/10)⟩ rfl

/-- C4 witness: trial 1 binds both parameters, so its processing is the
same from two different prior loop states. -/
theorem c4_witness :
    processTrial (staleOracle 16) ⟨0, none, none⟩ (bsTrial1 16) =
        processTrial (staleOracle 16) ⟨7, some 99, some 3⟩ (bsTrial1 16) ∧
      Event.evalCall (bsTrial1 16).nameId (pyInt 16) (1/10) ∈
        (processTrial (staleOracle 16) ⟨0, none, none⟩ (bsTrial1 16)).1 :=
  c4_eval_args_own_params_when_bound (staleOracle 16) (bsTrial1 16) (bsTrial1 16) 16 (1/10)
    rfl (by decide) rfl rfl ⟨0, none, none⟩ ⟨7, some 99, some 3⟩

/-- C6 witness: a down suggestion service aborts the run with its error; a
training run yielding an empty history makes evaluation raise `IndexError`,
aborting the run right after the evaluation call with no measurement and no
completion for that trial and no further suggestion request. -/
theorem c6_witness :
    (runLoop downOracle "client_pcam" 2 (0 + 1) 0 ⟨0, none, none⟩ =
       ([.suggestReq "client_pcam"], .failed (.remote "unavailable"))) ∧
    (runLoop failOracle "client_pcam" 2 (0 + 1) 0 ⟨0, none, none⟩ =
       ([.suggestReq "client_pcam", .getTrialReq 1,
         .evalCall 1 (pyInt 16) (1/10)], .failed .indexError)) ∧
    (processTrial failOracle ⟨0, none, none⟩ (pTrial 1) =
       ([.getTrialReq 1, .evalCall 1 (pyInt 16) (1/10)],
        .error .indexError)) :=
  ⟨(c6_failure_aborts_loop downOracle "client_pcam" 2 0 0 ⟨0, none, none⟩
        (by decide)).1 (.remote "unavailable") rfl,
   (c6_failure_aborts_loop failOracle "client_pcam" 2 0 0 ⟨0, none, none⟩
        (by decide)).2.1 [] (pTrial 1) [] [] ⟨0, none, none⟩
      [.getTrialReq 1, .evalCall 1 (pyInt 16) (1/10)] .indexError rfl rfl rfl,
   (c6_failure_aborts_loop failOracle "client_pcam" 2 0 0 ⟨0, none, none⟩
        (by decide)).2.2.2.1 ⟨0, none, none⟩ (pTrial 1) (pTrial 1) 16 (1/10)
      .indexError rfl (by decide) rfl rfl⟩

/-- C7 witness: a COMPLETED trial is skipped; a PENDING trial is
evaluated, measured and completed. -/
theorem c7_witness :
    (processTrial skipOracle ⟨0, none, none⟩ (pTrial 1) =
        ([.getTrialReq 1], .ok ⟨1, none, none⟩)) ∧
    (processTrial seqOracle ⟨0, none, none⟩ (pTrial 1) =
        ([.getTrialReq 1, .evalCall 1 (pyInt 16) (1/10),
          .addMeasurement 1 [⟨"accuracy", 9/10⟩], .completeTrial 1 false],
         .ok ⟨1, some 16, some (1/10)⟩)) :=
  ⟨(c7_terminal_skipped_nonterminal_completed skipOracle ⟨0, none, none⟩ (pTrial 1) ⟨1, .COMPLETED, []⟩ rfl).1
      (Or.inl rfl),
   (c7_terminal_skipped_nonterminal_completed seqOracle ⟨0, none, none⟩ (pTrial 1) (pTrial 1) rfl).2
      16 (1/10) [⟨"accuracy", 9/10⟩] (by decide) rfl rfl rfl rfl⟩

/-- C8 witness: the fresh service state satisfies the invariant and the
theorem applies to it. -/
theorem c8_witness :
    (svcSuggest (svcSuggest ⟨0, none⟩).1).2 = (svcSuggest ⟨0, none⟩).2 ∧
    (svcSuggest (svcComplete (svcSuggest ⟨0, none⟩).1)).2 ≠
      (svcSuggest ⟨0, none⟩).2 :=
  c8_client_identity_idempotent ⟨0, none⟩ trivial

/-- C9 witness: the evaluation-call event for a concrete processed
trial. -/
theorem c9_witness :
    Event.evalCall 1 (pyInt 16) (1/10) ∈
      (processTrial seqOracle ⟨0, none, none⟩ (pTrial 1)).1 :=
  c9_eval_batch_size_int_truncated seqOracle ⟨0, none, none⟩ (pTrial 1) (pTrial 1) 16 (1/10) rfl
    (by decide) rfl

/-- C10 witness: the measurement of a concrete processed trial carries the
final validation accuracy. -/
theorem c10_witness :
    ∃ b l va,
      (seqOracle.train b l).val_accuracy.getLast? = some va ∧
      ([⟨"accuracy", (9 : ℚ)/10⟩] : List MetricValue) = [⟨"accuracy", va⟩] :=
  c10_measurement_final_val_accuracy seqOracle ⟨0, none, none⟩ (pTrial 1) 1 [⟨"accuracy", 9/10⟩]
    (by simp [processTrial_seq])

end Pcam
